import Mathlib

/-!
Verification of the crawl / extraction / checkpoint pipeline of the
Nisbets product scraper (`app.py`).

The development is a shallow embedding of the pure logic of the program:

* strings are Lean `String`s, manipulated through their `List Char` data;
* the two regular expressions the code uses (`/([a-zA-Z]{1,4}\d{2,6})$`
  for SKUs and the mojibake price pattern) are embedded as executable
  scanners that implement Python's leftmost-match `re.search` semantics
  for those concrete patterns;
* the HTTP client, the HTML parser (`BeautifulSoup`), `urljoin`, image
  downloads and the wall clock are external libraries: they are modelled
  as explicit function parameters of an environment record, exactly at the
  call boundary the source uses them;
* file persistence (`save_products` / `save_progress`) is modelled as an
  event trace emitted by the batch loop, mutation of the `scraper_status`
  dictionary is modelled by the run-result record together with the list
  of writes made to the `running` flag.
-/

set_option maxRecDepth 40000

/-! ## String helpers (Python string operations used by the source) -/

/-- Python `url.split('?')[0]`: everything before the first `?`. -/
def stripQuery (s : String) : String :=
  String.mk (s.data.takeWhile (fun c => !(c == '?')))

/-- Python `s.lower()` (the source only ever lowercases ASCII URLs). -/
def strLower (s : String) : String :=
  String.mk (s.data.map Char.toLower)

/-- Python `sub in s`: substring containment. -/
def strContains (s sub : String) : Bool :=
  s.data.tails.any (fun t => sub.data.isPrefixOf t)

/-- Python `s.startswith(pre)`. -/
def strStartsWith (s pre : String) : Bool :=
  pre.data.isPrefixOf s.data

/-- Python `s.rstrip('/')`: remove every trailing `/`. -/
def rstripSlash (s : String) : String :=
  String.mk ((s.data.reverse.dropWhile (fun c => c == '/')).reverse)

/-- The final path segment of a string: the characters after the last `/`
(also `os.path.basename` for the POSIX paths the source builds). -/
def lastSegment (s : String) : String :=
  String.mk ((s.data.reverse.takeWhile (fun c => !(c == '/'))).reverse)

/-! ## The SKU regex `/([a-zA-Z]{1,4}\d{2,6})$`

`re.search` with this end-anchored pattern succeeds iff some position
holds a `/` followed by 1–4 ASCII letters and then 2–6 digits running to
the end of the string; the capture group is that letters+digits tail.
`skuMatchTail u` decides whether the whole of `u` is such a tail
(equivalently, whether `u` matches `^[a-zA-Z]{1,4}\d{2,6}$`), and
`skuSearch` scans positions left to right like `re.search`. -/

def skuMatchTail (u : List Char) : Bool :=
  let a := u.takeWhile Char.isAlpha
  let d := u.drop a.length
  decide (1 ≤ a.length) && decide (a.length ≤ 4) &&
    decide (2 ≤ d.length) && decide (d.length ≤ 6) && d.all Char.isDigit

def skuSearch : List Char → Option (List Char)
  | [] => none
  | c :: rest =>
    if c == '/' && skuMatchTail rest then some rest else skuSearch rest

example : skuSearch "https://www.nisbets.co.uk/a/ab12345".data = some "ab12345".data := by decide
example : skuSearch "https://www.nisbets.co.uk/abcde12345".data = none := by decide
example : skuSearch "https://www.nisbets.co.uk/ab12345/x".data = none := by decide

/-! ## URL classifiers (`URLScraper.is_product_url` / `is_category_url`) -/

def base_url : String := "https://www.nisbets.co.uk"

def productSkip : List String :=
  ["/c/", "/cat/", "/login", "/basket", "/checkout", "/help", "/blog"]

/-- Model of `URLScraper.is_product_url`: under the base host, no blocklist
substring in the lowercased query-stripped path, and the SKU regex finds a
match in the (original-case) query-stripped path. -/
def is_product_url (url : String) : Bool :=
  if !(strStartsWith url base_url) then false
  else
    let path := stripQuery url
    if productSkip.any (fun s => strContains (strLower path) s) then false
    else (skuSearch path.data).isSome

def categorySkip : List String :=
  ["/login", "/basket", "/checkout", "/account", "/help", ".pdf", ".jpg"]

def categoryPatterns : List String :=
  ["/c/", "-equipment", "-supplies", "catering", "refrigeration"]

/-- Model of `URLScraper.is_category_url`: under the base host, no blocklist
substring in the lowercased query-stripped path, and at least one
allowlist substring present. -/
def is_category_url (url : String) : Bool :=
  if !(strStartsWith url base_url) then false
  else
    let path := strLower (stripQuery url)
    if categorySkip.any (fun s => strContains path s) then false
    else categoryPatterns.any (fun p => strContains path p)

example : is_product_url "https://www.nisbets.co.uk/a/ab12345" = true := by decide
example : is_product_url "https://www.nisbets.co.uk/c/ab12345" = false := by decide
example : is_category_url "https://www.nisbets.co.uk/catering-equipment" = true := by decide
example : is_category_url "https://www.nisbets.co.uk/help/catering" = false := by decide

/-! ## The price regex

Line 142 of the source searches for the pattern whose prefix is the two
characters U+00C2, U+00A3 (the UTF-8 pound sign as mis-decoded Latin-1 —
a *mojibake* pound, not a plain `£`), followed by the capture group
`([\d,]+\.?\d*)`.  `priceMatchTail` matches the capture group greedily at
a fixed position (Python's greedy semantics need no backtracking for this
pattern: `[\d,]+` is maximal, then an optional `.`, then maximal `\d*`),
and `priceSearch` scans positions left to right like `re.search`. -/

def isDigitOrComma (c : Char) : Bool := c.isDigit || c == ','

def priceMatchTail (u : List Char) : Option (List Char) :=
  let d1 := u.takeWhile isDigitOrComma
  if d1.isEmpty then none
  else
    match u.drop d1.length with
    | '.' :: r2 => some (d1 ++ '.' :: r2.takeWhile Char.isDigit)
    | _ => some d1

def priceSearch : List Char → Option (List Char)
  | [] => none
  | c :: rest =>
    if c == 'Â' then
      match rest with
      | '£' :: r2 =>
        match priceMatchTail r2 with
        | some m => some m
        | none => priceSearch rest
      | _ => priceSearch rest
    else priceSearch rest

/-- Python `price_match.group(1).replace(',', '')` applied to the result of the
price search. -/
def priceCapture (text : String) : Option String :=
  (priceSearch text.data).map (fun cs => String.mk (cs.filter (fun c => !(c == ','))))

example : priceCapture "was Â£1,234.56 now" = some "1234.56" := by decide
example : priceCapture "£12.50" = none := by decide
example : priceCapture "Â£12.50" = some "12.50" := by decide

/-! ## The product extractor (`NisbetsScraper.extract_product`)

`BeautifulSoup` is an external library; a parsed document is modelled by
the record `Soup`, which gives, for each CSS selector string, the first
matching element (`select_one`) and the list of `img` elements
(`find_all('img')`).  An element supports `get_text()`, `get_text(strip=True)`
and `str(...)`; these are independent observations, so they are separate
fields. -/

structure Elem where
  getText : String
  getTextStrip : String
  raw : String

structure Img where
  src : Option String
  dataSrc : Option String

structure Soup where
  selectOne : String → Option Elem
  imgs : List Img

/-- The external collaborators of `extract_product`:
* `parse html` models `BeautifulSoup(html, 'lxml')`;
* `downloadImage url sku index` models `self.download_image(...)`
  (returns the local path, or `none` on any failure);
* `subImageSize` models the `re.sub` that rewrites size variants to
  `/largezoom/`; `subImageBase` models the `re.sub` that extracts the base
  filename — both are plain string transformers with no failure mode;
* `now` models `datetime.now().isoformat()`. -/
structure ExtractEnv where
  parse : String → Soup
  downloadImage : String → String → Nat → Option String
  subImageSize : String → String
  subImageBase : String → String
  now : String

structure Variant where
  title : String
  price : String
  sku : String
  inventory_management : String
  inventory_policy : String
  requires_shipping : Bool
  taxable : Bool
  weight_unit : String
  currency : String

/-- A metafield record; `nspace` and `mtype` stand for the source's
`namespace` and `type` keys. -/
structure Metafield where
  nspace : String
  key : String
  value : String
  mtype : String

structure ImageRec where
  src : String
  local_path : String
  filename : String

structure Product where
  title : String
  body_html : String
  vendor : String
  product_type : String
  tags : List String
  status : String
  variants : List Variant
  images : List ImageRec
  metafields : List Metafield
  source_url : String
  source_sku : String
  source_price : String
  scraped_at : String

/-- SKU derivation from the URL: `re.search(r'/([a-zA-Z]{1,4}\d{2,6})$', url)`
followed by `.group(1).upper()`. -/
def skuFromUrl (url : String) : Option String :=
  (skuSearch url.data).map (fun cs => String.mk (cs.map Char.toUpper))

def priceSelectors : List String := [".product-price", ".price", "[data-price]"]
def descSelectors : List String := [".product-description", ".description", "#product-description"]
def brandSelectors : List String := [".product-brand", ".brand-name", "[data-brand]"]

/-- The price-probing loop: the first selector whose element's
`get_text()` yields a regex match wins; an element without a match does
not stop the probing (the source only `break`s after a successful match). -/
def priceOf (soup : Soup) : Option String :=
  priceSelectors.findSome? (fun sel => (soup.selectOne sel).bind (fun e => priceCapture e.getText))

/-- Python `img.get('src') or img.get('data-src') or ''` (both `None` and
the empty string are falsy). -/
def imgSrc (im : Img) : String :=
  match im.src with
  | some s =>
    if !(s == "") then s
    else match im.dataSrc with
         | some t => t
         | none => ""
  | none =>
    match im.dataSrc with
    | some t => t
    | none => ""

/-- The image loop of `extract_product`: keep CDN images, rewrite to the
largest size variant, dedupe by lowercased base filename (the `seen` set),
download, and record the successful downloads in order. -/
def extractImages (E : ExtractEnv) (imgs : List Img) (sku : String) : List ImageRec :=
  (imgs.foldl
    (fun (st : List String × List ImageRec) im =>
      let (seen, acc) := st
      let src := imgSrc im
      if strContains src "prodimage" && strContains src "media.nisbets.com" then
        let src2 := E.subImageSize src
        let base := E.subImageBase (strLower src2)
        if seen.contains base then (seen, acc)
        else
          match E.downloadImage src2 sku (acc.length + 1) with
          | some lp => (base :: seen, acc ++ [⟨src2, lp, lastSegment lp⟩])
          | none => (base :: seen, acc)
      else (seen, acc))
    ([], [])).2

/-- Model of `NisbetsScraper.extract_product`.  The function is total: every
library call it makes is modelled by a total function, mirroring the fact
that the surrounding `try`/`except` lets no exception escape. -/
def extract_product (E : ExtractEnv) (html : String) (url : String) : Product :=
  let soup := E.parse html
  let source_sku := (skuFromUrl url).getD ""
  let title :=
    match soup.selectOne "h1" with
    | some e => e.getTextStrip
    | none => ""
  let price : Option String := priceOf soup
  let body_html :=
    match descSelectors.findSome? (fun sel => soup.selectOne sel) with
    | some e => e.raw
    | none => ""
  let vendor :=
    match brandSelectors.findSome? (fun sel => soup.selectOne sel) with
    | some e => e.getTextStrip
    | none => "Nisbets"
  let images := (extractImages E soup.imgs source_sku).take 10
  { title := title
    body_html := body_html
    vendor := vendor
    product_type := ""
    tags := ["SKU:" ++ source_sku, "UK", "Nisbets UK", "GBP"]
    status := "draft"
    variants := [{ title := "Default"
                   price := price.getD "0.00"
                   sku := source_sku
                   inventory_management := "shopify"
                   inventory_policy := "deny"
                   requires_shipping := true
                   taxable := true
                   weight_unit := "kg"
                   currency := "GBP" }]
    images := images
    metafields := [⟨"product", "currency", "GBP", "single_line_text_field"⟩,
                   ⟨"product", "country_of_origin", "United Kingdom", "single_line_text_field"⟩]
    source_url := url
    source_sku := source_sku
    source_price := price.getD ""
    scraped_at := E.now }

/-! ## The page fetcher (`NisbetsScraper.fetch_page`)

An HTTP attempt either produces a response (status code and body) or
raises a transport exception; `outcomes i` is what attempt `i` would
observe.  Besides the returned body the model records how many attempts
were actually made and how many `random_delay(3, 6)` sleeps were
executed (one per retried attempt). -/

inductive FetchOutcome where
  | resp (status : Nat) (text : String)
  | exc

structure FetchResult where
  result : Option String
  attempts : Nat
  delays : Nat
  deriving DecidableEq

/-- The retry loop of `fetch_page`, with `i` attempts already made and the
given number of attempts remaining. -/
def fetch_page_go (outcomes : Nat → FetchOutcome) (i : Nat) : Nat → FetchResult
  | 0 => { result := none, attempts := i, delays := i }
  | rem + 1 =>
    match outcomes i with
    | .resp status text =>
      if status == 200 then { result := some text, attempts := i + 1, delays := i }
      else if status == 404 then { result := none, attempts := i + 1, delays := i }
      else fetch_page_go outcomes (i + 1) rem
    | .exc => fetch_page_go outcomes (i + 1) rem

/-- Model of `NisbetsScraper.fetch_page` with its default `retries=3`. -/
def fetch_page (outcomes : Nat → FetchOutcome) : FetchResult :=
  fetch_page_go outcomes 0 3

/-- An outcome that neither returns the body nor aborts: any status other
than 200/404, or a transport exception.  Such an attempt sleeps and
retries. -/
def isRetryOutcome : FetchOutcome → Bool
  | .resp status _ => !(status == 200) && !(status == 404)
  | .exc => true

example : fetch_page (fun _ => .resp 200 "body") = ⟨some "body", 1, 0⟩ := by decide
example : fetch_page (fun _ => .resp 404 "") = ⟨none, 1, 0⟩ := by decide
example : fetch_page (fun _ => .resp 503 "x") = ⟨none, 3, 3⟩ := by decide
example : fetch_page (fun i => if i == 0 then .exc else .resp 200 "b") = ⟨some "b", 2, 1⟩ := by
  decide

/-! ## The batch runner (`NisbetsScraper.run_batch`)

The environment collects everything `run_batch` reads from the outside
world before and during the loop:

* `urls` is the list returned by `load_urls()` (run-time file, falling
  back to the bundled file);
* `fetch i` is the value `self.fetch_page(urls[i])` returns at loop index
  `i` (the retry behaviour inside one such call is `fetch_page` above);
* `ex` holds the extractor's collaborators;
* `products0` is the catalog loaded by `load_products()`, `failed0` and
  `last_index0` the checkpoint loaded by `load_progress()` (their default
  values `[]`, `[]`, `0` when the files are missing);
* `init_error` is `some msg` when `init_scraper()` — the first statement
  of the `try` block — raises; the `except` arm then records `msg` in the
  status record.

Persistence and status mutation are captured as data: `events` is the
ordered trace of processed indices and `save_products` / `save_progress`
calls, and `runningWrites` is the ordered list of assignments to
`scraper_status['running']`. -/

structure BatchEnv where
  urls : List String
  fetch : Nat → Option String
  ex : ExtractEnv
  products0 : List Product
  failed0 : List String
  last_index0 : Nat
  init_error : Option String

inductive BatchEvent where
  | proc (i : Nat)
  | saveProducts
  | saveProgress (idx : Nat)
  deriving DecidableEq

structure LoopState where
  products : List Product
  failed : List String
  last_scraped_index : Nat
  events : List BatchEvent

structure RunResult where
  products : List Product
  failed : List String
  last_scraped_index : Nat
  events : List BatchEvent
  runningWrites : List Bool
  error : Option String
  running : Bool

/-- One iteration of the window loop, at index `i`.  Python's
`if html:` is falsy both for `None` and for the empty string, so a `200`
response with an empty body lands in the `failed_urls` branch.  After the
body, `last_scraped_index` advances and, when `(i+1) % 25 == 0`, both the
catalog and the checkpoint are saved. -/
def batchStep (ε : BatchEnv) (st : LoopState) (i : Nat) : LoopState :=
  let url := ε.urls.getD i ""
  let st1 :=
    match ε.fetch i with
    | some html =>
      if html == "" then { st with failed := st.failed ++ [url] }
      else
        let product := extract_product ε.ex html url
        if product.title == "" then st
        else { st with products := st.products ++ [product] }
    | none => { st with failed := st.failed ++ [url] }
  let st2 := { st1 with
    last_scraped_index := i + 1
    events := st1.events ++ [.proc i] }
  if (i + 1) % 25 == 0 then
    { st2 with events := st2.events ++ [.saveProducts, .saveProgress (i + 1)] }
  else st2

/-- The end of the processing window: `min(start + batch_size, len(urls))`. -/
def batchEnd (ε : BatchEnv) (batch_size : Nat) : Nat :=
  min (ε.last_index0 + batch_size) ε.urls.length

/-- Model of `NisbetsScraper.run_batch`.  The three result shapes correspond to the
three control-flow exits of the source: the `except` arm (an exception
from `init_scraper`), the empty-URL-list early `return`, and normal
completion.  The `finally` arm writes `running = False` on every path;
the early return additionally wrote it explicitly on line 290. -/
def run_batch (ε : BatchEnv) (batch_size : Nat) : RunResult :=
  match ε.init_error with
  | some e =>
    { products := ε.products0, failed := ε.failed0
      last_scraped_index := ε.last_index0, events := []
      runningWrites := [true, false], error := some e, running := false }
  | none =>
    if ε.urls.isEmpty then
      { products := ε.products0, failed := ε.failed0
        last_scraped_index := ε.last_index0, events := []
        runningWrites := [true, false, false]
        error := some "No URLs found. Run URL scraper first.", running := false }
    else
      let start := ε.last_index0
      let stN := (List.range' start (batchEnd ε batch_size - start)).foldl (batchStep ε)
        ⟨ε.products0, ε.failed0, ε.last_index0, []⟩
      { products := stN.products, failed := stN.failed
        last_scraped_index := stN.last_scraped_index
        events := stN.events ++ [.saveProducts, .saveProgress stN.last_scraped_index]
        runningWrites := [true, false], error := none, running := false }

/-- The indices recorded by `proc` events: the URLs the batch attempted,
in order. -/
def procIndices (r : RunResult) : List Nat :=
  r.events.filterMap (fun e => match e with | .proc i => some i | _ => none)

/-- The arguments of the `save_progress` calls the run performed, in
order. -/
def savedIndices (r : RunResult) : List Nat :=
  r.events.filterMap (fun e => match e with | .saveProgress i => some i | _ => none)

/-- The `last_index` held by the checkpoint file once the run returns:
the argument of the last `save_progress` call, or the pre-existing value
when the run never saved. -/
def persistedIndex (ε : BatchEnv) (r : RunResult) : Nat :=
  (savedIndices r).getLast?.getD ε.last_index0

/-! ## The URL-discovery crawler (`URLScraper.scrape_page` / `URLScraper.run`)

The crawl environment abstracts the network and the two library calls the
crawler makes per hyperlink: `links page` is the list of `href`
attributes found on `page` (or `none` when the fetch fails, returns a
non-200 status, or parsing raises — the `except` arm makes all of those
add nothing), and `resolve href` models `urljoin(base_url, href)`.

Python's `set` has no deterministic `pop` order, so the run loop is a
step *relation*: any member of the pending category set may be popped
next. -/

structure CrawlEnv where
  links : String → Option (List String)
  resolve : String → String
  max_pages : Nat

/-- Python `urljoin(self.base_url, a['href']).split('?')[0].rstrip('/')`. -/
def normalizeHref (env : CrawlEnv) (href : String) : String :=
  rstripSlash (stripQuery (env.resolve href))

structure CrawlState where
  product_links : List String
  category_links : List String
  visited : List String
  pages : Nat

/-- Insertion into a Python `set` modelled on lists. -/
def setInsert (l : List String) (x : String) : List String :=
  if l.contains x then l else x :: l

/-- The per-hyperlink classification in `scrape_page`: a product URL goes
to `product_links`; otherwise (`elif` — the product check takes
precedence) a not-yet-visited category URL goes to `category_links`. -/
def classifyLink (env : CrawlEnv) (st : CrawlState) (href : String) : CrawlState :=
  let full := normalizeHref env href
  if is_product_url full then
    { st with product_links := setInsert st.product_links full }
  else if is_category_url full && !(st.visited.contains full) then
    { st with category_links := setInsert st.category_links full }
  else st

/-- Model of `URLScraper.scrape_page`: fetch, then classify every hyperlink; on
any fetch/parse failure add nothing. -/
def scrape_page (env : CrawlEnv) (st : CrawlState) (url : String) : CrawlState :=
  match env.links url with
  | none => st
  | some hrefs => hrefs.foldl (classifyLink env) st

/-- The state in which the `while` loop of `URLScraper.run` starts: empty
sets, then one unconditional `scrape_page(self.base_url)`. -/
def crawlInit (env : CrawlEnv) : CrawlState :=
  scrape_page env ⟨[], [], [], 0⟩ base_url

/-- One iteration of the `while` loop of `URLScraper.run`: pop any
pending category URL; if it was already visited, `continue` (the page
budget does not advance); otherwise mark it visited, scrape it, and
spend one page of budget. -/
inductive CrawlStep (env : CrawlEnv) : CrawlState → CrawlState → Prop where
  | visit (st : CrawlState) (u : String) (hu : u ∈ st.category_links)
      (hp : st.pages < env.max_pages) (hnv : u ∉ st.visited) :
      CrawlStep env st (scrape_page env
        { st with
          category_links := st.category_links.erase u
          visited := setInsert st.visited u
          pages := st.pages + 1 } u)
  | skip (st : CrawlState) (u : String) (hu : u ∈ st.category_links)
      (hp : st.pages < env.max_pages) (hv : u ∈ st.visited) :
      CrawlStep env st { st with category_links := st.category_links.erase u }

/-- The frontier invariant: no URL in the pending category set, and no
URL ever visited from it, satisfies `is_product_url`. -/
def CrawlInv (st : CrawlState) : Prop :=
  (∀ u ∈ st.category_links, is_product_url u = false) ∧
  (∀ u ∈ st.visited, is_product_url u = false)

/-! ## Characterizing one loop iteration -/

/-- The record (if any) that the iteration at index `i` appends to the
catalog. -/
def prodContrib (ε : BatchEnv) (i : Nat) : Option Product :=
  match ε.fetch i with
  | some html =>
    if html == "" then none
    else
      let product := extract_product ε.ex html (ε.urls.getD i "")
      if product.title == "" then none else some product
  | none => none

/-- The URL (if any) that the iteration at index `i` appends to
`failed_urls`. -/
def failContrib (ε : BatchEnv) (i : Nat) : Option String :=
  match ε.fetch i with
  | some html => if html == "" then some (ε.urls.getD i "") else none
  | none => some (ε.urls.getD i "")

/-- The events the iteration at index `i` emits. -/
def stepEvents (i : Nat) : List BatchEvent :=
  .proc i :: (if (i + 1) % 25 == 0 then [.saveProducts, .saveProgress (i + 1)] else [])

theorem batchStep_products (ε : BatchEnv) (st : LoopState) (i : Nat) :
    (batchStep ε st i).products = st.products ++ (prodContrib ε i).toList := by
  unfold batchStep prodContrib
  cases h : ε.fetch i <;> simp only [h] <;> split_ifs <;> simp

theorem batchStep_failed (ε : BatchEnv) (st : LoopState) (i : Nat) :
    (batchStep ε st i).failed = st.failed ++ (failContrib ε i).toList := by
  unfold batchStep failContrib
  cases h : ε.fetch i <;> simp only [h] <;> split_ifs <;> simp

theorem batchStep_events (ε : BatchEnv) (st : LoopState) (i : Nat) :
    (batchStep ε st i).events = st.events ++ stepEvents i := by
  unfold batchStep stepEvents
  cases h : ε.fetch i <;> simp only [h] <;> split_ifs <;> simp

theorem batchStep_last (ε : BatchEnv) (st : LoopState) (i : Nat) :
    (batchStep ε st i).last_scraped_index = i + 1 := by
  unfold batchStep
  cases h : ε.fetch i <;> simp only [h] <;> split_ifs <;> simp

/-! ## Characterizing the loop -/

theorem foldl_batchStep_products (ε : BatchEnv) (l : List Nat) (st : LoopState) :
    (l.foldl (batchStep ε) st).products = st.products ++ l.filterMap (prodContrib ε) := by
  induction l generalizing st with
  | nil => simp
  | cons i l ih =>
    rw [List.foldl_cons, ih, batchStep_products, List.filterMap_cons]
    cases prodContrib ε i <;> simp

theorem foldl_batchStep_failed (ε : BatchEnv) (l : List Nat) (st : LoopState) :
    (l.foldl (batchStep ε) st).failed = st.failed ++ l.filterMap (failContrib ε) := by
  induction l generalizing st with
  | nil => simp
  | cons i l ih =>
    rw [List.foldl_cons, ih, batchStep_failed, List.filterMap_cons]
    cases failContrib ε i <;> simp

theorem foldl_batchStep_events (ε : BatchEnv) (l : List Nat) (st : LoopState) :
    (l.foldl (batchStep ε) st).events = st.events ++ l.flatMap stepEvents := by
  induction l generalizing st with
  | nil => simp
  | cons i l ih =>
    rw [List.foldl_cons, ih, batchStep_events]
    simp

theorem foldl_batchStep_last (ε : BatchEnv) (l : List Nat) (st : LoopState) :
    (l.foldl (batchStep ε) st).last_scraped_index =
      (l.getLast?.map (· + 1)).getD st.last_scraped_index := by
  induction l generalizing st with
  | nil => simp
  | cons i l ih =>
    rw [List.foldl_cons, ih]
    cases l with
    | nil => simp [batchStep_last]
    | cons j l' =>
      rcases h' : (j :: l').getLast? with _ | x
      · exact absurd (List.getLast?_eq_none_iff.mp h') (by simp)
      · simp [h']

theorem filterMap_proc_stepEvents (l : List Nat) :
    (l.flatMap stepEvents).filterMap
      (fun e => match e with | BatchEvent.proc i => some i | _ => none) = l := by
  induction l with
  | nil => rfl
  | cons i l ih =>
    rw [List.flatMap_cons, List.filterMap_append, ih]
    unfold stepEvents
    split_ifs <;> simp

theorem filterMap_saved_stepEvents (l : List Nat) :
    (l.flatMap stepEvents).filterMap
      (fun e => match e with | BatchEvent.saveProgress i => some i | _ => none) =
      l.filterMap (fun i => if (i + 1) % 25 == 0 then some (i + 1) else none) := by
  induction l with
  | nil => rfl
  | cons i l ih =>
    rw [List.flatMap_cons, List.filterMap_append, ih, List.filterMap_cons]
    unfold stepEvents
    split_ifs <;> simp

theorem batchEnd_ge (ε : BatchEnv) (B : Nat) (hk : ε.last_index0 ≤ ε.urls.length) :
    ε.last_index0 ≤ batchEnd ε B := by
  unfold batchEnd; omega

/-- In the normal path (no `init_scraper` exception, non-empty URL list)
the event trace is the per-iteration trace over the window followed by
the unconditional final catalog+checkpoint save at the window's end. -/
theorem run_batch_events_eq (ε : BatchEnv) (B : Nat) (hinit : ε.init_error = none)
    (hk : ε.last_index0 ≤ ε.urls.length) (hne : ε.urls ≠ []) :
    (run_batch ε B).events =
      (List.range' ε.last_index0 (batchEnd ε B - ε.last_index0)).flatMap stepEvents
        ++ [.saveProducts, .saveProgress (batchEnd ε B)] := by
  have hne' : ε.urls.isEmpty = false := by simpa [List.isEmpty_iff] using hne
  have hge := batchEnd_ge ε B hk
  simp only [run_batch, hinit, hne', Bool.false_eq_true, if_false]
  rw [foldl_batchStep_events, foldl_batchStep_last]
  have harg :
      ((List.range' ε.last_index0 (batchEnd ε B - ε.last_index0)).getLast?.map
        (· + 1)).getD ε.last_index0 = batchEnd ε B := by
    rcases Nat.eq_zero_or_pos (batchEnd ε B - ε.last_index0) with h0 | hpos
    · rw [h0]; simp; omega
    · rw [List.getLast?_range']
      rw [if_neg (by omega)]
      simp
      omega
  rw [harg]
  simp

theorem run_batch_products_eq (ε : BatchEnv) (B : Nat) (hinit : ε.init_error = none)
    (hne : ε.urls ≠ []) :
    (run_batch ε B).products = ε.products0 ++
      (List.range' ε.last_index0 (batchEnd ε B - ε.last_index0)).filterMap (prodContrib ε) := by
  have hne' : ε.urls.isEmpty = false := by simpa [List.isEmpty_iff] using hne
  simp only [run_batch, hinit, hne', Bool.false_eq_true, if_false]
  rw [foldl_batchStep_products]

theorem run_batch_failed_eq (ε : BatchEnv) (B : Nat) (hinit : ε.init_error = none)
    (hne : ε.urls ≠ []) :
    (run_batch ε B).failed = ε.failed0 ++
      (List.range' ε.last_index0 (batchEnd ε B - ε.last_index0)).filterMap (failContrib ε) := by
  have hne' : ε.urls.isEmpty = false := by simpa [List.isEmpty_iff] using hne
  simp only [run_batch, hinit, hne', Bool.false_eq_true, if_false]
  rw [foldl_batchStep_failed]

theorem savedIndices_run_batch (ε : BatchEnv) (B : Nat) (hinit : ε.init_error = none)
    (hk : ε.last_index0 ≤ ε.urls.length) (hne : ε.urls ≠ []) :
    savedIndices (run_batch ε B) =
      ((List.range' ε.last_index0 (batchEnd ε B - ε.last_index0)).filterMap
        (fun i => if (i + 1) % 25 == 0 then some (i + 1) else none)) ++ [batchEnd ε B] := by
  unfold savedIndices
  rw [run_batch_events_eq ε B hinit hk hne, List.filterMap_append, filterMap_saved_stepEvents]
  simp

/-- Claim C2.  With a checkpoint `last_index = k ≤ L` and no internal
error, a batch of size `B` attempts exactly the indices
`k, k+1, …, k + min(B, L-k) - 1` in order, and the checkpoint persisted
when `run_batch` returns holds `last_index = k + min(B, L-k)`. -/
theorem run_batch_window_spec (ε : BatchEnv) (B : Nat) (hinit : ε.init_error = none)
    (hk : ε.last_index0 ≤ ε.urls.length) :
    procIndices (run_batch ε B) =
      List.range' ε.last_index0 (min B (ε.urls.length - ε.last_index0)) ∧
    persistedIndex ε (run_batch ε B) =
      ε.last_index0 + min B (ε.urls.length - ε.last_index0) := by
  have hmin : batchEnd ε B - ε.last_index0 = min B (ε.urls.length - ε.last_index0) := by
    unfold batchEnd; omega
  by_cases hne : ε.urls = []
  · have hL : ε.urls.length = 0 := by simp [hne]
    have hk0 : ε.last_index0 = 0 := by omega
    have : run_batch ε B =
        { products := ε.products0, failed := ε.failed0
          last_scraped_index := ε.last_index0, events := []
          runningWrites := [true, false, false]
          error := some "No URLs found. Run URL scraper first.", running := false } := by
      simp [run_batch, hinit, hne]
    rw [this]
    constructor
    · simp [procIndices, hL, hk0]
    · simp [persistedIndex, savedIndices, hL, hk0]
  · constructor
    · unfold procIndices
      rw [run_batch_events_eq ε B hinit hk hne, List.filterMap_append,
        filterMap_proc_stepEvents, hmin]
      simp
    · unfold persistedIndex
      rw [savedIndices_run_batch ε B hinit hk hne, List.getLast?_concat]
      simp
      unfold batchEnd
      omega

def soupEmpty : Soup := ⟨fun _ => none, []⟩

def exEnv0 : ExtractEnv := ⟨fun _ => soupEmpty, fun _ _ _ => none, id, id, ""⟩

def mkEnv (urls : List String) (k : Nat) (fetch : Nat → Option String) : BatchEnv :=
  ⟨urls, fetch, exEnv0, [], [], k, none⟩

/-- Witness for C2: three URLs, checkpoint at 1, batch size 5 — the run
attempts indices 1 and 2 and persists the checkpoint index 3. -/
theorem run_batch_window_spec_witness :
    procIndices (run_batch (mkEnv ["a", "b", "c"] 1 (fun _ => none)) 5) = [1, 2] ∧
    persistedIndex (mkEnv ["a", "b", "c"] 1 (fun _ => none))
      (run_batch (mkEnv ["a", "b", "c"] 1 (fun _ => none)) 5) = 3 := by
  have h := run_batch_window_spec (mkEnv ["a", "b", "c"] 1 (fun _ => none)) 5 rfl
    (by decide)
  simpa using h

/-! ## Checkpoint cadence and crash loss (C5) -/

/-- The amount of attempted work that would be lost if the process died
right after processing had reached index `j` (exclusive) but before any
save at `j` executed: `j` minus the largest index persisted strictly
before that point (the pre-existing checkpoint `last_index0` counts as
persisted). -/
def crashLoss (ε : BatchEnv) (r : RunResult) (j : Nat) : Nat :=
  j - ((ε.last_index0 :: (savedIndices r).filter (fun s => decide (s < j))).foldl Nat.max 0)

/-- Claim C5 as stated: the catalog and checkpoint are persisted after
every 25 URLs processed *within the batch* (i.e. at within-batch
multiples of 25), once more at the end of the window, and a crash at any
point loses at most 24 URLs of attempted work. -/
def batchSaves25AsStated (ε : BatchEnv) (B : Nat) : Prop :=
  (∀ m, 0 < m → m % 25 = 0 → ε.last_index0 + m ≤ batchEnd ε B →
    (ε.last_index0 + m) ∈ savedIndices (run_batch ε B)) ∧
  batchEnd ε B ∈ savedIndices (run_batch ε B) ∧
  (∀ j, ε.last_index0 ≤ j → j ≤ batchEnd ε B → crashLoss ε (run_batch ε B) j ≤ 24)

theorem foldl_max_init_le (l : List Nat) (a : Nat) : a ≤ l.foldl Nat.max a := by
  induction l generalizing a with
  | nil => exact Nat.le_refl a
  | cons y l ih => exact Nat.le_trans (Nat.le_max_left a y) (ih (Nat.max a y))

theorem le_foldl_max (l : List Nat) (a x : Nat) (hx : x ∈ l) : x ≤ l.foldl Nat.max a := by
  induction l generalizing a with
  | nil => cases hx
  | cons y l ih =>
    rcases List.mem_cons.mp hx with rfl | hx'
    · exact Nat.le_trans (Nat.le_max_right a x) (foldl_max_init_le l (Nat.max a x))
    · exact ih (Nat.max a y) hx'

/-- Counterexample to C5 as stated: with checkpoint `last_index = 10`, 40
URLs and batch size 30, the run saves at absolute indices 25 and 40 only —
there is no save after 25 URLs processed within the batch (index 35). -/
theorem batchSaves25_counterexample :
    ¬ batchSaves25AsStated (mkEnv (List.replicate 40 "u") 10 (fun _ => none)) 30 := by
  intro h
  have h35 := h.1 25 (by norm_num) (by norm_num) (by decide)
  exact absurd h35 (by decide)

/-- Claim C5 (amended).  During the window, both the catalog and the
checkpoint are persisted exactly when the absolute index `i + 1` of the
just-processed URL is divisible by 25, and both are persisted once more
unconditionally at the end of the window; consequently a crash at any
point loses at most 25 URLs of attempted work (25 is reached, e.g. just
before the save at index 25 of a batch started at checkpoint 0). -/
theorem run_batch_save_cadence (ε : BatchEnv) (B : Nat) (hinit : ε.init_error = none)
    (hk : ε.last_index0 ≤ ε.urls.length) (hne : ε.urls ≠ []) :
    savedIndices (run_batch ε B) =
      ((List.range' ε.last_index0 (batchEnd ε B - ε.last_index0)).filterMap
        (fun i => if (i + 1) % 25 == 0 then some (i + 1) else none)) ++ [batchEnd ε B] ∧
    (∀ j, ε.last_index0 ≤ j → j ≤ batchEnd ε B → crashLoss ε (run_batch ε B) j ≤ 25) := by
  have hS := savedIndices_run_batch ε B hinit hk hne
  refine ⟨hS, ?_⟩
  intro j hj1 hj2
  unfold crashLoss
  by_cases hj25 : j ≤ ε.last_index0 + 25
  · have hkmax : ε.last_index0 ≤
        ((ε.last_index0 :: (savedIndices (run_batch ε B)).filter
          (fun s => decide (s < j))).foldl Nat.max 0) :=
      le_foldl_max _ 0 _ (List.mem_cons_self _ _)
    omega
  · set M : Nat := 25 * ((j - 1) / 25) with hM
    have hdm := Nat.div_add_mod (j - 1) 25
    have hmlt : (j - 1) % 25 < 25 := Nat.mod_lt _ (by norm_num)
    have hM25 : M % 25 = 0 := by
      rw [hM]; exact Nat.mul_mod_right 25 _
    have hMge : ε.last_index0 + 1 ≤ M := by omega
    have hMltj : M < j := by omega
    have hMj : j - M ≤ 25 := by omega
    have hMmem : M ∈ savedIndices (run_batch ε B) := by
      rw [hS]
      refine List.mem_append_left _ ?_
      rw [List.mem_filterMap]
      refine ⟨M - 1, ?_, ?_⟩
      · rw [List.mem_range']
        exact ⟨M - 1 - ε.last_index0, by omega, by omega⟩
      · have : M - 1 + 1 = M := by omega
        rw [this]
        simp [hM25]
    have hMfil : M ∈ (savedIndices (run_batch ε B)).filter (fun s => decide (s < j)) := by
      rw [List.mem_filter]
      exact ⟨hMmem, by simpa using hMltj⟩
    have hMmax : M ≤
        ((ε.last_index0 :: (savedIndices (run_batch ε B)).filter
          (fun s => decide (s < j))).foldl Nat.max 0) :=
      le_foldl_max _ 0 _ (List.mem_cons_of_mem _ hMfil)
    omega

/-- Witness for the amended C5: the counterexample run itself saves at
[25, 40], and a crash just before the save at 25 would lose 25 URLs at
most. -/
theorem run_batch_save_cadence_witness :
    savedIndices (run_batch (mkEnv (List.replicate 40 "u") 10 (fun _ => none)) 30) = [25, 40] ∧
    crashLoss (mkEnv (List.replicate 40 "u") 10 (fun _ => none))
      (run_batch (mkEnv (List.replicate 40 "u") 10 (fun _ => none)) 30) 35 ≤ 25 := by
  have h := run_batch_save_cadence (mkEnv (List.replicate 40 "u") 10 (fun _ => none)) 30
    rfl (by decide) (by decide)
  constructor
  · rw [h.1]; decide
  · exact h.2 35 (by decide) (by decide)

/-! ## The `running` flag and the empty-list exit (C4) -/

/-- Claim C4's first half as stated: on an empty URL list, `run_batch`
records a configuration error, performs no fetch or persistence work, and
never marks `Run Status.running`. -/
def emptyListNoMarkAsStated (ε : BatchEnv) (B : Nat) : Prop :=
  ε.urls = [] →
    ((run_batch ε B).error.isSome = true ∧ (run_batch ε B).events = [] ∧
      true ∉ (run_batch ε B).runningWrites)

/-- Counterexample to C4 as stated: line 281 of the source assigns
`scraper_status['running'] = True` before the URL list is even loaded, so
the empty-list path does transiently mark `running` (its write trace is
`[True, False, False]`). -/
theorem emptyListNoMark_counterexample :
    ¬ emptyListNoMarkAsStated (mkEnv [] 0 (fun _ => none)) 100 := by
  intro h
  exact (h rfl).2.2 (by decide)

/-- Claim C4 (amended).  On every execution path (normal completion,
internal error, empty URL list) `run_batch` returns with
`Run Status.running = False` — the last write to the flag is always
`False`; on the empty-list path it records the configuration error and
returns having performed no fetch and no persistence work, although it
did set `running = True` on entry before clearing it. -/
theorem run_batch_running_cleared (ε : BatchEnv) (B : Nat) :
    (run_batch ε B).running = false ∧
    (run_batch ε B).runningWrites.getLast? = some false ∧
    (ε.urls = [] → ε.init_error = none →
      (run_batch ε B).error = some "No URLs found. Run URL scraper first." ∧
      (run_batch ε B).events = [] ∧
      (run_batch ε B).runningWrites = [true, false, false]) := by
  rcases hinit : ε.init_error with _ | e
  · by_cases hne : ε.urls = []
    · simp [run_batch, hinit, hne]
    · have hne' : ε.urls.isEmpty = false := by simpa [List.isEmpty_iff] using hne
      refine ⟨?_, ?_, fun h _ => absurd h hne⟩ <;>
        simp [run_batch, hinit, hne']
  · exact ⟨by simp [run_batch, hinit], by simp [run_batch, hinit],
      fun _ h => Option.noConfusion h⟩

/-- Witness for the amended C4: a concrete empty-list run ends with the
error recorded, no events, and `running = False`. -/
theorem run_batch_running_cleared_witness :
    (run_batch (mkEnv [] 0 (fun _ => none)) 100).events = [] ∧
    (run_batch (mkEnv [] 0 (fun _ => none)) 100).running = false := by
  have h := run_batch_running_cleared (mkEnv [] 0 (fun _ => none)) 100
  exact ⟨(h.2.2 rfl rfl).2.1, h.1⟩

/-! ## Per-URL catalog / failed-list accounting (C7, C9) -/

/-- Claim C7 as stated, at one processing index: if the fetch succeeds
(returns a body) and the extracted record would have an empty title, the
URL is not appended to `failed_urls`. -/
def emptyTitleNotFailedAsStated (ε : BatchEnv) (B : Nat) (i : Nat) : Prop :=
  ∀ s, ε.fetch i = some s →
    (extract_product ε.ex s (ε.urls.getD i "")).title = "" →
    (ε.urls.getD i "") ∉ (run_batch ε B).failed

/-- Counterexample to C7 as stated: a 200 response with an *empty* body
is a successful fetch, and the record extracted from an empty document
has an empty title, yet Python's `if html:` treats the empty string as
falsy, so the URL lands in `failed_urls`. -/
theorem emptyTitleNotFailed_counterexample :
    (mkEnv ["https://www.nisbets.co.uk/a/ab12345"] 0 (fun _ => some "")).fetch 0 = some "" ∧
    (extract_product exEnv0 "" "https://www.nisbets.co.uk/a/ab12345").title = "" ∧
    ¬ emptyTitleNotFailedAsStated
      (mkEnv ["https://www.nisbets.co.uk/a/ab12345"] 0 (fun _ => some "")) 1 0 := by
  refine ⟨rfl, by decide, fun h => ?_⟩
  exact h "" rfl (by decide) (by decide)

/-- Claim C7 (amended).  For every URL processed in a batch: the run's
catalog and failed list are exactly the loaded ones extended by the
per-index contributions; an index whose fetch succeeded with a
*non-empty* body but whose extracted record has an empty title
contributes to neither list; an index whose fetch failed contributes no
record and exactly one `failed_urls` entry. -/
theorem run_batch_per_url_accounting (ε : BatchEnv) (B : Nat)
    (hinit : ε.init_error = none) (hne : ε.urls ≠ []) :
    ((run_batch ε B).products = ε.products0 ++
        (List.range' ε.last_index0 (batchEnd ε B - ε.last_index0)).filterMap (prodContrib ε) ∧
      (run_batch ε B).failed = ε.failed0 ++
        (List.range' ε.last_index0 (batchEnd ε B - ε.last_index0)).filterMap (failContrib ε)) ∧
    (∀ i s, ε.fetch i = some s → s ≠ "" →
      (extract_product ε.ex s (ε.urls.getD i "")).title = "" →
      prodContrib ε i = none ∧ failContrib ε i = none) ∧
    (∀ i, ε.fetch i = none →
      prodContrib ε i = none ∧ failContrib ε i = some (ε.urls.getD i "")) := by
  refine ⟨⟨run_batch_products_eq ε B hinit hne, run_batch_failed_eq ε B hinit hne⟩, ?_, ?_⟩
  · intro i s hs hne' htitle
    constructor
    · unfold prodContrib
      rw [hs]
      simp only [beq_iff_eq]
      rw [if_neg hne', if_pos htitle]
    · unfold failContrib
      rw [hs]
      simp only [beq_iff_eq]
      rw [if_neg hne']
  · intro i hn
    unfold prodContrib failContrib
    rw [hn]
    exact ⟨rfl, rfl⟩

/-- Witness for the amended C7: one URL whose fetch fails — the catalog
is unchanged and the URL is recorded as failed exactly once. -/
theorem run_batch_per_url_accounting_witness :
    (run_batch (mkEnv ["u"] 0 (fun _ => none)) 1).products = [] ∧
    (run_batch (mkEnv ["u"] 0 (fun _ => none)) 1).failed = ["u"] ∧
    failContrib (mkEnv ["u"] 0 (fun _ => none)) 0 = some "u" := by
  have h := run_batch_per_url_accounting (mkEnv ["u"] 0 (fun _ => none)) 1 rfl (by decide)
  have h0 := (h.2.2 0 rfl).2
  refine ⟨?_, ?_, h0⟩
  · rw [h.1.1]; rfl
  · rw [h.1.2]; rfl

/-- Claim C9.  A 200 response with an empty body makes `fetch_page`
return the empty string, and the batch loop then treats that result as a
fetch failure: the catalog is untouched (no extraction, no append) and
the URL is appended to `failed_urls`. -/
theorem empty_body_treated_as_failure (oc : Nat → FetchOutcome) (ε : BatchEnv) (B : Nat)
    (url : String) (hoc : oc 0 = .resp 200 "") (hurls : ε.urls = [url])
    (hk : ε.last_index0 = 0) (hinit : ε.init_error = none)
    (hfetch : ε.fetch 0 = (fetch_page oc).result) (hB : 1 ≤ B) :
    (fetch_page oc).result = some "" ∧
    (run_batch ε B).products = ε.products0 ∧
    (run_batch ε B).failed = ε.failed0 ++ [url] := by
  have hne : ε.urls ≠ [] := by rw [hurls]; exact List.cons_ne_nil _ _
  have hres : (fetch_page oc).result = some "" := by
    have hfp : fetch_page oc = { result := some "", attempts := 1, delays := 0 } := by
      unfold fetch_page
      conv_lhs => rw [fetch_page_go]
      rw [hoc]
      rfl
    rw [hfp]
  have hf0 : ε.fetch 0 = some "" := by rw [hfetch, hres]
  have hend : batchEnd ε B - ε.last_index0 = 1 := by
    unfold batchEnd
    rw [hurls, hk]
    simp
    omega
  have hrange : List.range' ε.last_index0 (batchEnd ε B - ε.last_index0) = [0] := by
    rw [hend, hk]
    rfl
  have hprod : prodContrib ε 0 = none := by
    unfold prodContrib
    rw [hf0]
    rfl
  have hfail : failContrib ε 0 = some url := by
    unfold failContrib
    rw [hf0, hurls]
    rfl
  refine ⟨hres, ?_, ?_⟩
  · rw [run_batch_products_eq ε B hinit hne, hrange]
    simp [hprod]
  · rw [run_batch_failed_eq ε B hinit hne, hrange]
    simp [hfail]

/-- Witness for C9 at a fully concrete environment. -/
theorem empty_body_treated_as_failure_witness :
    (fetch_page (fun _ => .resp 200 "")).result = some "" ∧
    (run_batch (mkEnv ["u"] 0 (fun _ => (fetch_page (fun _ => .resp 200 "")).result)) 1).products
      = [] ∧
    (run_batch (mkEnv ["u"] 0 (fun _ => (fetch_page (fun _ => .resp 200 "")).result)) 1).failed
      = ["u"] := by
  have h := empty_body_treated_as_failure (fun _ => .resp 200 "")
    (mkEnv ["u"] 0 (fun _ => (fetch_page (fun _ => .resp 200 "")).result)) 1 "u"
    rfl rfl rfl rfl rfl (by omega)
  simpa using h

/-- Claim C6.  `extract_product` is a total function of its inputs (the
`try`/`except` lets no exception escape — every library call it makes is
modelled by a total function), and for every page content and source URL
the returned record carries exactly one variant, whose `price` is the
probed price (`priceOf`) or `"0.00"` when none was found, and whose
`sku` equals the record's `source_sku` (the uppercased SKU derived from
the URL). -/
theorem extract_product_variant_spec (E : ExtractEnv) (html url : String) :
    (extract_product E html url).variants =
      [{ title := "Default"
         price := (priceOf (E.parse html)).getD "0.00"
         sku := (extract_product E html url).source_sku
         inventory_management := "shopify"
         inventory_policy := "deny"
         requires_shipping := true
         taxable := true
         weight_unit := "kg"
         currency := "GBP" }] ∧
    (extract_product E html url).source_sku = (skuFromUrl url).getD "" :=
  ⟨rfl, rfl⟩

/-! ## The fetch retry policy (C3) -/

theorem fetch_page_go_retry (oc : Nat → FetchOutcome) (i rem : Nat)
    (h : isRetryOutcome (oc i) = true) :
    fetch_page_go oc i (rem + 1) = fetch_page_go oc (i + 1) rem := by
  conv_lhs => rw [fetch_page_go]
  cases hoc : oc i with
  | exc => rfl
  | resp status text =>
    rw [hoc] at h
    simp only [isRetryOutcome, Bool.and_eq_true, Bool.not_eq_true'] at h
    simp only [h.1, h.2]
    rfl

theorem fetch_page_go_200 (oc : Nat → FetchOutcome) (i rem : Nat) (t : String)
    (h : oc i = .resp 200 t) :
    fetch_page_go oc i (rem + 1) = ⟨some t, i + 1, i⟩ := by
  conv_lhs => rw [fetch_page_go]
  rw [h]
  rfl

theorem fetch_page_go_404 (oc : Nat → FetchOutcome) (i rem : Nat) (t : String)
    (h : oc i = .resp 404 t) :
    fetch_page_go oc i (rem + 1) = ⟨none, i + 1, i⟩ := by
  conv_lhs => rw [fetch_page_go]
  rw [h]
  rfl

/-- Claim C3.  `fetch_page` makes up to 3 attempts: the first attempt
that returns HTTP 200 yields the body (no further attempt, one 3–6 s
delay per previously retried attempt); the first attempt that returns
404 yields `none` immediately with no further attempt; any other status
or a transport exception is retried after a delay, and when all 3
attempts are such retries the result is `none` after 3 delays.  The
function is total — every failure mode degrades to `none`. -/
theorem fetch_page_retry_spec (oc : Nat → FetchOutcome) :
    (∀ i t, i < 3 → oc i = .resp 200 t →
      (∀ j, j < i → isRetryOutcome (oc j) = true) →
      fetch_page oc = ⟨some t, i + 1, i⟩) ∧
    (∀ i t, i < 3 → oc i = .resp 404 t →
      (∀ j, j < i → isRetryOutcome (oc j) = true) →
      fetch_page oc = ⟨none, i + 1, i⟩) ∧
    ((∀ j, j < 3 → isRetryOutcome (oc j) = true) →
      fetch_page oc = ⟨none, 3, 3⟩) := by
  refine ⟨?_, ?_, ?_⟩
  · intro i t hi h200 hprev
    unfold fetch_page
    interval_cases i
    · exact fetch_page_go_200 oc 0 2 t h200
    · rw [fetch_page_go_retry oc 0 2 (hprev 0 (by omega))]
      exact fetch_page_go_200 oc 1 1 t h200
    · rw [fetch_page_go_retry oc 0 2 (hprev 0 (by omega)),
        fetch_page_go_retry oc 1 1 (hprev 1 (by omega))]
      exact fetch_page_go_200 oc 2 0 t h200
  · intro i t hi h404 hprev
    unfold fetch_page
    interval_cases i
    · exact fetch_page_go_404 oc 0 2 t h404
    · rw [fetch_page_go_retry oc 0 2 (hprev 0 (by omega))]
      exact fetch_page_go_404 oc 1 1 t h404
    · rw [fetch_page_go_retry oc 0 2 (hprev 0 (by omega)),
        fetch_page_go_retry oc 1 1 (hprev 1 (by omega))]
      exact fetch_page_go_404 oc 2 0 t h404
  · intro hall
    unfold fetch_page
    rw [fetch_page_go_retry oc 0 2 (hall 0 (by omega)),
      fetch_page_go_retry oc 1 1 (hall 1 (by omega)),
      fetch_page_go_retry oc 2 0 (hall 2 (by omega))]
    rfl

/-- Witness for C3: a 500 then a 200 — the second attempt's body is
returned after one retry delay. -/
theorem fetch_page_retry_spec_witness :
    fetch_page (fun i => if i == 1 then .resp 200 "body" else .resp 500 "err") =
      ⟨some "body", 2, 1⟩ :=
  (fetch_page_retry_spec _).1 1 "body" (by omega) rfl
    (fun j hj => by interval_cases j; rfl)

/-! ## Classifier soundness (C8) -/

theorem strContains_iff (s sub : String) : strContains s sub = true ↔ sub.data <:+: s.data := by
  unfold strContains
  rw [List.any_eq_true]
  constructor
  · rintro ⟨t, ht, hp⟩
    rw [List.mem_tails] at ht
    rw [List.isPrefixOf_iff_prefix] at hp
    exact List.infix_iff_prefix_suffix.mpr ⟨t, hp, ht⟩
  · intro h
    rcases List.infix_iff_prefix_suffix.mp h with ⟨t, hp, hs⟩
    exact ⟨t, (List.mem_tails _ _).mpr hs, List.isPrefixOf_iff_prefix.mpr hp⟩

theorem strContains_lower (s sub : String) (h : strContains s sub = true) :
    strContains (strLower s) (strLower sub) = true := by
  rw [strContains_iff] at h ⊢
  exact List.IsInfix.map Char.toLower h

theorem skuSearch_eq_some (l m : List Char) (h : skuSearch l = some m) :
    ∃ a, l = a ++ '/' :: m ∧ skuMatchTail m = true := by
  induction l with
  | nil => simp [skuSearch] at h
  | cons c rest ih =>
    rw [skuSearch] at h
    split at h
    · rename_i hcond
      have hcond' : (c == '/') = true ∧ skuMatchTail rest = true := by simpa using hcond
      obtain rfl : rest = m := Option.some.inj h
      exact ⟨[], by rw [List.nil_append, beq_iff_eq.mp hcond'.1], hcond'.2⟩
    · obtain ⟨a, ha, hmt⟩ := ih h
      exact ⟨c :: a, by rw [List.cons_append, ha], hmt⟩

theorem skuMatchTail_split (m : List Char) :
    m.takeWhile Char.isAlpha ++ m.drop (m.takeWhile Char.isAlpha).length = m := by
  have hpre := List.takeWhile_prefix (l := m) Char.isAlpha
  rw [List.prefix_iff_eq_take] at hpre
  conv_lhs => rw [hpre]
  rw [← hpre]
  have := List.take_append_drop (m.takeWhile Char.isAlpha).length m
  rw [← hpre] at this
  exact this

theorem skuMatchTail_no_slash (m : List Char) (h : skuMatchTail m = true) : '/' ∉ m := by
  unfold skuMatchTail at h
  simp only [Bool.and_eq_true] at h
  intro hmem
  rw [← skuMatchTail_split m] at hmem
  rcases List.mem_append.mp hmem with h1 | h2
  · exact absurd (List.mem_takeWhile_imp h1) (by decide)
  · exact absurd (List.all_eq_true.mp h.2 _ h2) (by decide)

theorem takeWhile_append_cons {α : Type} (p : α → Bool) (l₁ : List α) (c : α) (t : List α)
    (h1 : ∀ x ∈ l₁, p x = true) (hc : p c = false) :
    (l₁ ++ c :: t).takeWhile p = l₁ := by
  induction l₁ with
  | nil => simp [List.takeWhile_cons, hc]
  | cons x l ih =>
    rw [List.cons_append, List.takeWhile_cons, h1 x (List.mem_cons_self _ _)]
    rw [ih (fun y hy => h1 y (List.mem_cons_of_mem _ hy))]
    simp

theorem lastSegment_of_append (a m : List Char) (hm : '/' ∉ m) :
    lastSegment (String.mk (a ++ '/' :: m)) = String.mk m := by
  show String.mk (((a ++ '/' :: m).reverse.takeWhile (fun c => !(c == '/'))).reverse) =
    String.mk m
  rw [List.reverse_append, List.reverse_cons, List.append_assoc, List.singleton_append]
  rw [takeWhile_append_cons _ _ _ _
    (fun x hx => by
      have hxm : x ∈ m := List.mem_reverse.mp hx
      have : ¬(x == '/') = true := fun hb => hm (beq_iff_eq.mp hb ▸ hxm)
      simpa using this)
    (by decide)]
  rw [List.reverse_reverse]

/-- Modelled from the claim's words: a full match of the SKU-segment
pattern `^[a-zA-Z]{1,4}\d{2,6}$` (to be compared with what the source's
search-anchored regex guarantees about the final path segment). -/
def matchesSkuShape (s : String) : Bool := skuMatchTail s.data

theorem is_product_url_parts (url : String) (h : is_product_url url = true) :
    (∀ s ∈ productSkip, strContains (strLower (stripQuery url)) s = false) ∧
    ∃ m, skuSearch (stripQuery url).data = some m := by
  unfold is_product_url at h
  split at h
  · exact absurd h (by simp)
  · simp only [] at h
    split at h
    · exact absurd h (by simp)
    · rename_i hskip
      refine ⟨?_, Option.isSome_iff_exists.mp h⟩
      intro s hs
      exact Bool.eq_false_iff.mpr
        (fun htr => hskip (List.any_eq_true.mpr ⟨s, hs, htr⟩))

/-- Claim C8.  Soundness of the two URL classifiers: a URL classified as
a product has a final path segment matching `^[a-zA-Z]{1,4}\d{2,6}$` and
a query-stripped path containing no product-blocklist substring; a URL
classified as a category has a lowercased query-stripped path containing
at least one allowlist substring and no category-blocklist substring. -/
theorem classifier_soundness (url : String) :
    (is_product_url url = true →
      matchesSkuShape (lastSegment (stripQuery url)) = true ∧
      ∀ s ∈ productSkip, strContains (stripQuery url) s = false) ∧
    (is_category_url url = true →
      categoryPatterns.any (fun p => strContains (strLower (stripQuery url)) p) = true ∧
      ∀ s ∈ categorySkip, strContains (strLower (stripQuery url)) s = false) := by
  constructor
  · intro h
    obtain ⟨hskip, m, hm⟩ := is_product_url_parts url h
    obtain ⟨a, ha, hmt⟩ := skuSearch_eq_some _ _ hm
    constructor
    · unfold matchesSkuShape
      have hmk : stripQuery url = String.mk (a ++ '/' :: m) := by
        have h1 : String.mk (stripQuery url).data = String.mk (a ++ '/' :: m) :=
          congrArg String.mk ha
        exact h1
      rw [hmk, lastSegment_of_append a m (skuMatchTail_no_slash m hmt)]
      exact hmt
    · have hfix : ∀ s ∈ productSkip, strLower s = s := by decide
      intro s hs
      apply Bool.eq_false_iff.mpr
      intro htr
      have h2 := strContains_lower _ _ htr
      rw [hfix s hs] at h2
      exact Bool.eq_false_iff.mp (hskip s hs) h2
  · intro h
    unfold is_category_url at h
    split at h
    · exact absurd h (by simp)
    · simp only [] at h
      split at h
      · exact absurd h (by simp)
      · rename_i hskip
        refine ⟨h, ?_⟩
        intro s hs
        exact Bool.eq_false_iff.mpr
          (fun htr => hskip (List.any_eq_true.mpr ⟨s, hs, htr⟩))

/-- Witness for C8 at a URL that both classifiers accept. -/
theorem classifier_soundness_witness :
    is_product_url "https://www.nisbets.co.uk/catering-equipment/ab1234" = true ∧
    is_category_url "https://www.nisbets.co.uk/catering-equipment/ab1234" = true ∧
    matchesSkuShape
      (lastSegment (stripQuery "https://www.nisbets.co.uk/catering-equipment/ab1234")) = true ∧
    (∀ s ∈ productSkip,
      strContains (stripQuery "https://www.nisbets.co.uk/catering-equipment/ab1234") s
        = false) ∧
    (∀ s ∈ categorySkip,
      strContains (strLower (stripQuery "https://www.nisbets.co.uk/catering-equipment/ab1234"))
        s = false) := by
  have h := classifier_soundness "https://www.nisbets.co.uk/catering-equipment/ab1234"
  have hp := h.1 (by decide)
  have hc := h.2 (by decide)
  exact ⟨by decide, by decide, hp.1, hp.2, hc.2⟩

/-! ## The end-to-end single-product scenario (C1) -/

theorem skuSearch_append (p m : List Char) (hmt : skuMatchTail m = true) :
    skuSearch (p ++ '/' :: m) = some m := by
  induction p with
  | nil =>
    rw [List.nil_append, skuSearch]
    simp [hmt]
  | cons c p ih =>
    rw [List.cons_append, skuSearch]
    split
    · rename_i hcond
      have h2 : skuMatchTail (p ++ '/' :: m) = true := by
        have := Bool.and_elim_right hcond
        simpa using this
      exact absurd (show ('/' : Char) ∈ p ++ '/' :: m by simp)
        (skuMatchTail_no_slash _ h2)
    · exact ih

theorem priceSearch_prefix_free (t r : List Char) (hA : 'Â' ∉ t) :
    priceSearch (t ++ r) = priceSearch r := by
  induction t with
  | nil => rfl
  | cons c t ih =>
    rw [List.cons_append]
    conv_lhs => rw [priceSearch.eq_def]
    have hc : (c == 'Â') = false :=
      beq_eq_false_iff_ne.mpr (fun hb => hA (hb ▸ List.mem_cons_self _ _))
    simp only [hc, Bool.false_eq_true, if_false]
    exact ih (fun hm => hA (List.mem_cons_of_mem _ hm))

theorem priceCapture_append (t : String) (hA : 'Â' ∉ t.data) :
    priceCapture (String.mk (t.data ++ "Â£12.50".data)) = some "12.50" := by
  show (priceSearch (t.data ++ "Â£12.50".data)).map _ = _
  rw [priceSearch_prefix_free t.data _ hA]
  decide

/-- The field-level reading of `extract_product`, used to settle the
end-to-end scenario. -/
theorem extract_product_fields (E : ExtractEnv) (html url : String) :
    (extract_product E html url).title =
      (match (E.parse html).selectOne "h1" with
        | some e => e.getTextStrip
        | none => "") ∧
    (extract_product E html url).source_sku = (skuFromUrl url).getD "" ∧
    (extract_product E html url).tags =
      ["SKU:" ++ (skuFromUrl url).getD "", "UK", "Nisbets UK", "GBP"] ∧
    (extract_product E html url).variants.map (fun v => v.price) =
      [(priceOf (E.parse html)).getD "0.00"] :=
  ⟨rfl, rfl, rfl, rfl⟩

def soupC1 : Soup :=
  { selectOne := fun sel =>
      if sel == "h1" then some ⟨"Widget", "Widget", "<h1>Widget</h1>"⟩
      else if sel == ".product-price" then some ⟨"£12.50", "£12.50", ""⟩
      else none
    imgs := [] }

def exC1 : ExtractEnv := ⟨fun _ => soupC1, fun _ _ _ => none, id, id, ""⟩

def envC1 : BatchEnv :=
  { urls := ["https://www.nisbets.co.uk/a/ab12345"], fetch := fun _ => some "<html>"
    ex := exC1, products0 := [], failed0 := [], last_index0 := 0, init_error := none }

/-- Counterexample to C1 as stated: in the exact scenario of the claim —
one URL ending in `/ab12345`, no prior checkpoint, a successful fetch
whose parsed page has `<h1>Widget</h1>` and a price element whose text
is `£12.50` (a real pound sign) — the run produces the record with
title "Widget" and SKU "AB12345" and advances the checkpoint to 1, but
the variant price is "0.00", not "12.50": the source's price regex
(line 142) expects the mojibake prefix `Â£`, which a true `£` does not
match. -/
theorem end_to_end_price_counterexample :
    (soupC1.selectOne ".product-price").map (fun e => e.getText) = some "£12.50" ∧
    (run_batch envC1 100).products.map
      (fun r => (r.title, r.source_sku, r.variants.map (fun v => v.price))) =
      [("Widget", "AB12345", ["0.00"])] ∧
    persistedIndex envC1 (run_batch envC1 100) = 1 ∧
    (run_batch envC1 100).products.map (fun r => r.variants.map (fun v => v.price)) ≠
      [["12.50"]] := by
  refine ⟨by decide, by decide, by decide, by decide⟩

/-- Claim C1 (amended).  A batch over a one-element URL list whose URL
ends in `/ab12345`, with no prior checkpoint and an empty prior catalog,
where the fetch succeeds with a non-empty body whose parsed page has
`<h1>Widget</h1>` and a price element whose text ends in `Â£12.50` (the
mojibake pound prefix the source's regex expects; a plain `£12.50` yields
price "0.00" instead — see the counterexample), produces a catalog with
exactly one record having title "Widget", source SKU "AB12345", a single
variant priced "12.50" and tags `SKU:AB12345`, `UK`, `Nisbets UK`, `GBP`,
and leaves the persisted checkpoint at `last_index = 1`. -/
theorem end_to_end_single_product (ε : BatchEnv) (B : Nat) (url htext html : String)
    (p : List Char) (e1 e2 : Elem) (soup : Soup)
    (hB : 1 ≤ B) (hurls : ε.urls = [url]) (hk : ε.last_index0 = 0)
    (hp0 : ε.products0 = []) (hinit : ε.init_error = none)
    (hurl : url.data = p ++ '/' :: "ab12345".data)
    (hfetch : ε.fetch 0 = some html) (hhtml : html ≠ "")
    (hparse : ε.ex.parse html = soup)
    (hh1 : soup.selectOne "h1" = some e1) (he1 : e1.getTextStrip = "Widget")
    (hpe : soup.selectOne ".product-price" = some e2)
    (he2 : e2.getText = String.mk (htext.data ++ "Â£12.50".data))
    (hA : 'Â' ∉ htext.data) :
    (run_batch ε B).products.map
      (fun r => (r.title, r.source_sku, r.variants.map (fun v => v.price), r.tags)) =
      [("Widget", "AB12345", ["12.50"], ["SKU:AB12345", "UK", "Nisbets UK", "GBP"])] ∧
    persistedIndex ε (run_batch ε B) = 1 := by
  have hne : ε.urls ≠ [] := by rw [hurls]; exact List.cons_ne_nil _ _
  have hL : ε.urls.length = 1 := by rw [hurls]; rfl
  have hkL : ε.last_index0 ≤ ε.urls.length := by omega
  have hend : batchEnd ε B - ε.last_index0 = 1 := by unfold batchEnd; omega
  have hrange : List.range' ε.last_index0 (batchEnd ε B - ε.last_index0) = [0] := by
    rw [hend, hk]; rfl
  have hget : ε.urls.getD 0 "" = url := by rw [hurls]; rfl
  have hsku : skuFromUrl url = some "AB12345" := by
    unfold skuFromUrl
    rw [hurl, skuSearch_append p _ (by decide)]
    decide
  have hprice : priceOf soup = some "12.50" := by
    unfold priceOf priceSelectors
    rw [List.findSome?_cons, hpe]
    simp only [Option.some_bind]
    rw [he2, priceCapture_append htext hA]
  have ht : (extract_product ε.ex html url).title = "Widget" := by
    rw [(extract_product_fields ε.ex html url).1, hparse, hh1]
    exact he1
  have hsk : (extract_product ε.ex html url).source_sku = "AB12345" := by
    rw [(extract_product_fields ε.ex html url).2.1, hsku]
    rfl
  have htg : (extract_product ε.ex html url).tags =
      ["SKU:AB12345", "UK", "Nisbets UK", "GBP"] := by
    rw [(extract_product_fields ε.ex html url).2.2.1, hsku]
    rfl
  have hvp : (extract_product ε.ex html url).variants.map (fun v => v.price) = ["12.50"] := by
    rw [(extract_product_fields ε.ex html url).2.2.2, hparse, hprice]
    rfl
  have hcontrib : prodContrib ε 0 = some (extract_product ε.ex html url) := by
    have hb : (html == "") = false := beq_eq_false_iff_ne.mpr hhtml
    have hbt : ((extract_product ε.ex html url).title == "") = false := by
      rw [ht]; decide
    unfold prodContrib
    rw [hfetch, hget]
    dsimp only
    simp only [hb, Bool.false_eq_true, if_false]
    simp only [hbt, Bool.false_eq_true, if_false]
  constructor
  · rw [run_batch_products_eq ε B hinit hne, hrange, hp0]
    rw [List.nil_append, List.filterMap_cons, hcontrib]
    simp only [List.filterMap_nil, List.map_cons, List.map_nil]
    rw [ht, hsk, htg, hvp]
  · unfold persistedIndex
    rw [savedIndices_run_batch ε B hinit hkL hne, List.getLast?_concat]
    show batchEnd ε B = 1
    unfold batchEnd
    omega

def soupC1W : Soup :=
  { selectOne := fun sel =>
      if sel == "h1" then some ⟨"Widget", "Widget", "<h1>Widget</h1>"⟩
      else if sel == ".product-price" then some ⟨"Â£12.50", "Â£12.50", ""⟩
      else none
    imgs := [] }

def exC1W : ExtractEnv := ⟨fun _ => soupC1W, fun _ _ _ => none, id, id, ""⟩

def envC1W : BatchEnv :=
  { urls := ["https://www.nisbets.co.uk/a/ab12345"], fetch := fun _ => some "<html>"
    ex := exC1W, products0 := [], failed0 := [], last_index0 := 0, init_error := none }

/-- Witness for the amended C1 at a fully concrete environment. -/
theorem end_to_end_single_product_witness :
    (run_batch envC1W 100).products.map
      (fun r => (r.title, r.source_sku, r.variants.map (fun v => v.price), r.tags)) =
      [("Widget", "AB12345", ["12.50"], ["SKU:AB12345", "UK", "Nisbets UK", "GBP"])] ∧
    persistedIndex envC1W (run_batch envC1W 100) = 1 :=
  end_to_end_single_product envC1W 100 "https://www.nisbets.co.uk/a/ab12345" "" "<html>"
    "https://www.nisbets.co.uk/a".data ⟨"Widget", "Widget", "<h1>Widget</h1>"⟩
    ⟨"Â£12.50", "Â£12.50", ""⟩ soupC1W
    (by omega) rfl rfl rfl rfl (by decide) rfl (by decide) rfl rfl rfl rfl rfl (by decide)

/-! ## The crawl frontier invariant (C10) -/

theorem mem_setInsert_self (l : List String) (x : String) : x ∈ setInsert l x := by
  unfold setInsert
  split_ifs with hc
  · simpa using hc
  · exact List.mem_cons_self x l

theorem classifyLink_visited (env : CrawlEnv) (st : CrawlState) (href : String) :
    (classifyLink env st href).visited = st.visited := by
  unfold classifyLink
  simp only []
  split_ifs <;> rfl

theorem classifyLink_category_cases (env : CrawlEnv) (st : CrawlState) (href : String)
    (u : String) (hu : u ∈ (classifyLink env st href).category_links) :
    u ∈ st.category_links ∨ (u = normalizeHref env href ∧ is_product_url u = false) := by
  unfold classifyLink at hu
  simp only [] at hu
  split_ifs at hu with h1 h2
  · exact Or.inl hu
  · unfold setInsert at hu
    split_ifs at hu with h3
    · exact Or.inl hu
    · rcases List.mem_cons.mp hu with rfl | hu'
      · exact Or.inr ⟨rfl, Bool.eq_false_iff.mpr h1⟩
      · exact Or.inl hu'
  · exact Or.inl hu

theorem foldl_classify_visited (env : CrawlEnv) (l : List String) (st : CrawlState) :
    (l.foldl (classifyLink env) st).visited = st.visited := by
  induction l generalizing st with
  | nil => rfl
  | cons h l ih => rw [List.foldl_cons, ih, classifyLink_visited]

theorem foldl_classify_category (env : CrawlEnv) (l : List String) (st : CrawlState)
    (hst : ∀ u ∈ st.category_links, is_product_url u = false) :
    ∀ u ∈ (l.foldl (classifyLink env) st).category_links, is_product_url u = false := by
  induction l generalizing st with
  | nil => exact hst
  | cons h l ih =>
    rw [List.foldl_cons]
    apply ih
    intro u hu
    rcases classifyLink_category_cases env st h u hu with h1 | ⟨_, h2⟩
    · exact hst u h1
    · exact h2

theorem scrape_page_inv (env : CrawlEnv) (st : CrawlState) (url : String)
    (hst : ∀ u ∈ st.category_links, is_product_url u = false) :
    (∀ u ∈ (scrape_page env st url).category_links, is_product_url u = false) ∧
    (scrape_page env st url).visited = st.visited := by
  unfold scrape_page
  cases env.links url with
  | none => exact ⟨hst, rfl⟩
  | some hrefs =>
    exact ⟨foldl_classify_category env hrefs st hst, foldl_classify_visited env hrefs st⟩

theorem crawlStep_inv (env : CrawlEnv) (s s' : CrawlState)
    (hstep : CrawlStep env s s') (hinv : CrawlInv s) : CrawlInv s' := by
  cases hstep with
  | visit u hu hp hnv =>
    have hcat1 : ∀ x ∈ s.category_links.erase u, is_product_url x = false :=
      fun x hx => hinv.1 x (List.mem_of_mem_erase hx)
    have hvis1 : ∀ x ∈ setInsert s.visited u, is_product_url x = false := by
      intro x hx
      unfold setInsert at hx
      split_ifs at hx with hc
      · exact hinv.2 x hx
      · rcases List.mem_cons.mp hx with rfl | hx'
        · exact hinv.1 x hu
        · exact hinv.2 x hx'
    have h := scrape_page_inv env
      { s with category_links := s.category_links.erase u
               visited := setInsert s.visited u
               pages := s.pages + 1 } u hcat1
    exact ⟨h.1, by rw [h.2]; exact hvis1⟩
  | skip u hu hp hv =>
    exact ⟨fun x hx => hinv.1 x (List.mem_of_mem_erase hx), hinv.2⟩

theorem crawlInit_inv (env : CrawlEnv) : CrawlInv (crawlInit env) := by
  unfold crawlInit
  have h := scrape_page_inv env ⟨[], [], [], 0⟩ base_url (by intro u hu; cases hu)
  refine ⟨h.1, ?_⟩
  rw [h.2]
  intro u hu
  cases hu

/-- Claim C10.  In every state the crawl run can reach, no URL in the
pending category frontier — and no URL ever visited from it — satisfies
`is_product_url`; and a hyperlink whose normalized form is classified as
a product (the `elif` gives the product check precedence) leaves the
category frontier untouched and lands in `product_links`. -/
theorem crawl_frontier_no_products (env : CrawlEnv) (st : CrawlState)
    (h : Relation.ReflTransGen (CrawlStep env) (crawlInit env) st) :
    CrawlInv st ∧
    (∀ (s : CrawlState) (href : String),
      is_product_url (normalizeHref env href) = true →
      (classifyLink env s href).category_links = s.category_links ∧
      normalizeHref env href ∈ (classifyLink env s href).product_links) := by
  constructor
  · induction h with
    | refl => exact crawlInit_inv env
    | tail h1 h2 ih => exact crawlStep_inv env _ _ h2 ih
  · intro s href hprod
    unfold classifyLink
    simp only []
    rw [hprod, if_pos rfl]
    exact ⟨rfl, mem_setInsert_self _ _⟩

def crawlEnvW : CrawlEnv :=
  { links := fun u => if u == base_url then some ["/catering-appliances", "/x/cd9999"] else none
    resolve := fun href => String.mk (base_url.data ++ href.data)
    max_pages := 5 }

/-- Witness for C10 at a concrete crawl environment (the initial state
is reachable by the empty run). -/
theorem crawl_frontier_no_products_witness :
    CrawlInv (crawlInit crawlEnvW) ∧
    (classifyLink crawlEnvW (crawlInit crawlEnvW) "/x/cd9999").category_links =
      (crawlInit crawlEnvW).category_links := by
  have h := crawl_frontier_no_products crawlEnvW (crawlInit crawlEnvW)
    Relation.ReflTransGen.refl
  exact ⟨h.1, (h.2 (crawlInit crawlEnvW) "/x/cd9999" (by decide)).1⟩
